import Mathlib

/-!
Verification of the aggregation and multi-selection analytics engine of the
texaszones-explorer repository.

The embedding models the data-processing logic of three components:
* `OverviewMap` (src/unnamed/part_000, first component): `zipSummaries`,
  `aggregatedData`, the gender-ratio / avg-students-per-school displays and the
  performance ranking;
* `ZipCodeAnalyzer` (src/unnamed/part_000, second component): the `zipAnalysis`
  group fold with its dynamic `processedTotals` map;
* `DataExplorer` (src/src/components/DataExplorer.tsx): `dataAnalysis` type
  inference and the `filteredData` pagination projection.

JavaScript numbers are modelled as `Option ℚ` where `none` is NaN; property
values as a four-way variant (number, string, null, undefined); JS `Map`s and
property bags as insertion-ordered association lists.
-/

/-- A JS property value as it occurs in a feature's property bag: a number, a
string, `null`, or `undefined` (the result of reading an absent key). -/
inductive Value where
  | num (q : ℚ)
  | str (s : String)
  | null
  | undefined
  deriving DecidableEq

/-- A JS number that may be NaN: `none` is NaN, `some q` a finite value.
(Infinities never arise in the modelled code paths: every division is guarded
by a positivity test on the denominator or applied to a record count ≥ 1.) -/
abbrev JNum := Option ℚ

/-- JS `+` on numbers; NaN propagates. -/
def jadd : JNum → JNum → JNum
  | some a, some b => some (a + b)
  | _, _ => none

/-- JS truthiness of a property value: `0`, `""`, `null`, `undefined` are falsy. -/
def truthy : Value → Bool
  | .num q => q != 0
  | .str s => s != ""
  | .null => false
  | .undefined => false

/-- JS `a || b` on property values. -/
def vOr (a b : Value) : Value := if truthy a then a else b

/-- A feature's property bag: attribute name to value, in insertion order. -/
abbrev Bag := List (String × Value)

/-- A feature is modelled by its property bag; the geometry is opaque and
never inspected by the aggregation core. -/
abbrev Feature := Bag

/-- JS property access `props[k]`: the first binding of `k`, else `undefined`. -/
def getProp (props : Bag) (k : String) : Value :=
  match props.find? (fun kv => decide (kv.1 = k)) with
  | some kv => kv.2
  | none => .undefined

/-- Accumulate a digit run into a natural number. -/
def digitsToNat : List Char → ℕ → ℕ
  | [], acc => acc
  | c :: cs, acc => digitsToNat cs (acc * 10 + (c.toNat - 48))

/-- JS `parseInt` on a string (default radix 10): skip leading whitespace, read
an optional sign, then the longest leading run of decimal digits; NaN when that
run is empty.  Hex prefixes are not modelled (the pipeline never produces
them). -/
def parseIntStr (s : String) : JNum :=
  let cs := s.toList.dropWhile Char.isWhitespace
  match cs with
  | '-' :: t =>
      let ds := t.takeWhile Char.isDigit
      if ds.isEmpty then none else some (-(digitsToNat ds 0 : ℚ))
  | '+' :: t =>
      let ds := t.takeWhile Char.isDigit
      if ds.isEmpty then none else some (digitsToNat ds 0 : ℚ)
  | t =>
      let ds := t.takeWhile Char.isDigit
      if ds.isEmpty then none else some (digitsToNat ds 0 : ℚ)

/-- Unsigned decimal literal: digits with an optional fraction part, the whole
input must be consumed.  `none` is NaN. -/
def parseDecCore (cs : List Char) : JNum :=
  let intPart := cs.takeWhile Char.isDigit
  let rest := cs.dropWhile Char.isDigit
  match rest with
  | [] => if intPart.isEmpty then none else some (digitsToNat intPart 0 : ℚ)
  | '.' :: frac =>
      if frac.all Char.isDigit && !(intPart.isEmpty && frac.isEmpty) then
        some ((digitsToNat intPart 0 : ℚ) + (digitsToNat frac 0 : ℚ) / (10 ^ frac.length : ℚ))
      else none
  | _ => none

/-- JS `Number(s)` (ToNumber) restricted to plain decimal literals: the string
is trimmed; empty yields 0; otherwise an optional sign followed by a decimal
literal.  Exponent and hex forms are not modelled (never produced by this
dataset pipeline).  `none` is NaN. -/
def numberOfString (s : String) : JNum :=
  let cs := (s.toList.dropWhile Char.isWhitespace).reverse.dropWhile Char.isWhitespace
  match cs.reverse with
  | [] => some 0
  | '-' :: t => (parseDecCore t).map (fun q => -q)
  | '+' :: t => parseDecCore t
  | t => parseDecCore t

/-- Model of the source idiom `+(v || 0)` (unary plus after a falsy-default):
absent, `null`, `""` and `0` give 0; a number gives itself; a non-empty string
is converted with `Number`. -/
def numV : Value → JNum
  | .num q => some q
  | .str s => if s = "" then some 0 else numberOfString s
  | .null => some 0
  | .undefined => some 0

/-- Truncation toward zero on ℚ, which is what `parseInt` does to the decimal
rendering of a finite number. -/
def ratTrunc (q : ℚ) : ℤ := if 0 ≤ q then ⌊q⌋ else ⌈q⌉

/-- Model of `parseInt(v || 0)` and `parseInt(String(v || 0))` on a property
value: absent, `null`, `""` and `0` render as `"0"` and parse to 0; a number is
truncated toward zero (its decimal rendering's leading integer part); a
non-empty string goes through `parseIntStr`. -/
def parseIntV : Value → JNum
  | .num q => some (ratTrunc q : ℚ)
  | .str s => if s = "" then some 0 else parseIntStr s
  | .null => some 0
  | .undefined => some 0

/-- JS `x >= 0` on a possibly-NaN number (false for NaN). -/
def jGe0 : JNum → Bool
  | some q => decide (0 ≤ q)
  | none => false

/-- JS `x > 0` on a possibly-NaN number (false for NaN). -/
def jPos : JNum → Bool
  | some q => decide (0 < q)
  | none => false

/-- JS `x || d` on numbers: NaN and 0 fall back to the default. -/
def jorD (x : JNum) (d : ℚ) : JNum :=
  match x with
  | some q => if q = 0 then some d else some q
  | none => some d

/-- JS `Math.round`: half rounds toward +∞; NaN propagates. -/
def jround : JNum → JNum
  | some q => some ((⌊q + 1/2⌋ : ℤ) : ℚ)
  | none => none

/-- Division of a possibly-NaN number by a record count.  Every stored group
has count ≥ 1, so the count-0 branch is unreachable in the modelled code. -/
def jdivN (x : JNum) (n : ℕ) : JNum :=
  match x with
  | some q => if n = 0 then none else some (q / (n : ℚ))
  | none => none

/-- Division on possibly-NaN numbers; only reached under a positivity guard on
the denominator in the modelled code. -/
def jdivJ : JNum → JNum → JNum
  | some a, some b => if b = 0 then none else some (a / b)
  | _, _ => none

/-- Sum of a list of possibly-NaN numbers. -/
def jsum (l : List JNum) : JNum := l.foldr jadd (some 0)

/-- Lookup in an insertion-ordered association list (JS `Map.get` /
first-binding property access). -/
def mapGet {κ ν : Type} [DecidableEq κ] (m : List (κ × ν)) (k : κ) : Option ν :=
  (m.find? (fun kv => decide (kv.1 = k))).map (fun kv => kv.2)

/-- JS `Map.set`: replace the binding of an existing key in place, else append
(insertion order preserved). -/
def mapSet {κ ν : Type} [DecidableEq κ] : List (κ × ν) → κ → ν → List (κ × ν)
  | [], k, v => [(k, v)]
  | (a, b) :: m, k, v => if a = k then (k, v) :: m else (a, b) :: mapSet m k v

/-- The source idiom `if (!m.has(k)) m.set(k, 0); m.set(k, m.get(k) + v)`. -/
def mapAdd (m : List (String × JNum)) (k : String) (v : JNum) : List (String × JNum) :=
  mapSet m k (jadd ((mapGet m k).getD (some 0)) v)

/-- Fold a whole totals map into another, entry by entry (the
`processedTotals.forEach` aggregation loop in `aggregatedData`). -/
def mapAddAll (m src : List (String × JNum)) : List (String × JNum) :=
  src.foldl (fun acc kv => mapAdd acc kv.1 kv.2) m

/-- The numeric total stored for key `k`, reading an absent key as 0
(the UI reads these maps with `get(k) || 0`). -/
def getJ (m : List (String × JNum)) (k : String) : JNum :=
  (mapGet m k).getD (some 0)

/-- Per-ZIP accumulator built by `zipSummaries` in `OverviewMap`
(src/unnamed/part_000, lines 99-139). -/
structure ZipInfo where
  zip : Value
  totalStudents : JNum
  totalPopulation : JNum
  totalFemale : JNum
  totalMale : JNum
  count : ℕ
  schools : JNum
  features : List Feature
  processedTotals : List (String × JNum)
  deriving DecidableEq

/-- The fresh accumulator installed on first sight of a ZIP. -/
def newZipInfo (z : Value) : ZipInfo :=
  { zip := z, totalStudents := some 0, totalPopulation := some 0,
    totalFemale := some 0, totalMale := some 0, count := 0, schools := some 0,
    features := [], processedTotals := [] }

/-- The fixed list of generically-summed fields in `zipSummaries`. -/
def essentialFields : List String :=
  ["Pre_K", "KG", "Grade_1", "Grade_2", "Grade_3", "Stdnt_R"]

/-- Group-key resolution `props.Zip || props.ZIP || props.zipcode`, shared by
`zipSummaries` (line 95), `zipAnalysis` (line 1114), and the map styling. -/
def resolveZip (props : Bag) : Value :=
  vOr (getProp props "Zip") (vOr (getProp props "ZIP") (getProp props "zipcode"))

/-- The in-place mutation of one group entry for one feature in `zipSummaries`
(src/unnamed/part_000, lines 113-139): `+(field || 0)` parsing for the named
totals, and the guarded `essentialFields` loop for the generic map. -/
def zipUpd (cur : ZipInfo) (f : Feature) : ZipInfo :=
  { zip := cur.zip
    totalStudents := jadd cur.totalStudents
      (jadd (numV (getProp f "Female")) (numV (getProp f "Male")))
    totalPopulation := jadd cur.totalPopulation (numV (getProp f "pop"))
    totalFemale := jadd cur.totalFemale (numV (getProp f "Female"))
    totalMale := jadd cur.totalMale (numV (getProp f "Male"))
    count := cur.count + 1
    schools := jadd cur.schools (numV (getProp f "Schl_Cn"))
    features := cur.features ++ [f]
    processedTotals := essentialFields.foldl
      (fun pt k =>
        if jGe0 (numV (getProp f k)) then mapAdd pt k (numV (getProp f k)) else pt)
      cur.processedTotals }

/-- One feature folded into the `zipSummaries` map (src/unnamed/part_000,
lines 93-140): a feature with no truthy ZIP alias is skipped; otherwise the
(possibly fresh) group entry is updated in place. -/
def zipStep (m : List (Value × ZipInfo)) (f : Feature) : List (Value × ZipInfo) :=
  let zip := resolveZip f
  if truthy zip then
    mapSet m zip (zipUpd ((mapGet m zip).getD (newZipInfo zip)) f)
  else m

/-- The `zipSummaries` group index of `OverviewMap` (lines 82-146).  The
source's batching in slices of 1000 is a UI-latency device that preserves
feature order, so the fold is over the plain feature sequence. -/
def zipSummaries (features : List Feature) : List (Value × ZipInfo) :=
  features.foldl zipStep []

/-- The aggregated-selection summary record of `aggregatedData`
(src/unnamed/part_000, lines 162-171). -/
structure Agg where
  zips : List Value
  totalStudents : JNum
  totalPopulation : JNum
  totalFemale : JNum
  totalMale : JNum
  totalRecords : ℕ
  totalSchools : JNum
  processedTotals : List (String × JNum)
  deriving DecidableEq

/-- The all-zero summary the fold starts from. -/
def initAgg (sel : List Value) : Agg :=
  { zips := sel, totalStudents := some 0, totalPopulation := some 0,
    totalFemale := some 0, totalMale := some 0, totalRecords := 0,
    totalSchools := some 0, processedTotals := [] }

/-- Per-group contribution to the aggregated school count:
`Math.round(zipData.schools / zipData.count) || 0` (line 181). -/
def schoolsContrib (g : ZipInfo) : JNum := jorD (jround (jdivN g.schools g.count)) 0

/-- One resolved group folded into the aggregate (lines 176-189). -/
def aggStep (agg : Agg) (g : ZipInfo) : Agg :=
  { agg with
    totalStudents := jadd agg.totalStudents g.totalStudents
    totalPopulation := jadd agg.totalPopulation g.totalPopulation
    totalFemale := jadd agg.totalFemale g.totalFemale
    totalMale := jadd agg.totalMale g.totalMale
    totalRecords := agg.totalRecords + g.count
    totalSchools := jadd agg.totalSchools (schoolsContrib g)
    processedTotals := mapAddAll agg.processedTotals g.processedTotals }

/-- The body of the `selectedZips.forEach` loop (lines 173-191): a key with no
matching group entry leaves the aggregate untouched. -/
def aggSelStep (summaries : List (Value × ZipInfo)) (agg : Agg) (zip : Value) : Agg :=
  match mapGet summaries zip with
  | some zipData => aggStep agg zipData
  | none => agg

/-- `aggregatedData` (src/unnamed/part_000, lines 159-194): `null` for an empty
selection, else the fold of every selected key that resolves to a present
group entry. -/
def aggregatedData (selectedZips : List Value) (summaries : List (Value × ZipInfo)) :
    Option Agg :=
  if selectedZips.isEmpty then none
  else some (selectedZips.foldl (aggSelStep summaries) (initAgg selectedZips))

/-- Reading of an absent summary as the all-zero "no selection" record (the
spec's "all figures zero / summary absent"). -/
def aggOrZero (o : Option Agg) : Agg := o.getD (initAgg [])

/-- Result of the Gender Ratio display: the not-applicable sentinel, a ratio
value, or NaN (shown when a poisoned female total is divided by a positive
male total). -/
inductive RatioResult where
  | na
  | nan
  | val (q : ℚ)
  deriving DecidableEq

/-- Gender Ratio (F:M) display (src/unnamed/part_000, lines 600-608):
`totalMale > 0 ? (totalFemale / totalMale).toFixed(2) : 'N/A'`.  The value is
kept exact rather than rendered to two decimals. -/
def genderRatio (a : Agg) : RatioResult :=
  if jPos a.totalMale then
    match jdivJ a.totalFemale a.totalMale with
    | some q => .val q
    | none => .nan
  else .na

/-- Avg Students/School display (src/unnamed/part_000, lines 555-563):
`totalSchools > 0 ? Math.round(totalStudents / totalSchools) : 0`. -/
def avgStudentsPerSchool (a : Agg) : JNum :=
  if jPos a.totalSchools then jround (jdivJ a.totalStudents a.totalSchools) else some 0

/-- The ranking metric `item.data?.totalStudents || 0` (NaN and 0 both read
as 0 by `||`). -/
def rankVal (g : ZipInfo) : ℚ :=
  match g.totalStudents with
  | some q => q
  | none => 0

/-- Stable insertion: `x` is placed before the first element that does not
strictly precede it, so elements comparing equal keep their original order. -/
def insertStable {α : Type} (le : α → α → Bool) (x : α) : List α → List α
  | [] => [x]
  | y :: ys => if le y x && !(le x y) then y :: insertStable le x ys else x :: y :: ys

/-- Stable sort by insertion.  `Array.prototype.sort` is stable (ES2019), and a
stable sort under a total transitive comparator has a unique result, so this
is extensionally the source's sort. -/
def sortStable {α : Type} (le : α → α → Bool) : List α → List α
  | [] => []
  | x :: xs => insertStable le x (sortStable le xs)

/-- The comparator order of `ZIP Code Performance Ranking`:
`(b.data?.totalStudents || 0) - (a.data?.totalStudents || 0)` sorts by
descending student total. -/
def rankLe (a b : Value × ZipInfo) : Bool := decide (rankVal b.2 ≤ rankVal a.2)

/-- ZIP Code Performance Ranking (src/unnamed/part_000, lines 776-784): resolve
the selection against the summaries (dropping absent keys), stable-sort by
descending student total, and keep the first 10 entries (`slice(0, 10)`). -/
def rankZips (selectedZips : List Value) (summaries : List (Value × ZipInfo)) :
    List (Value × ZipInfo) :=
  (sortStable rankLe
    (selectedZips.filterMap (fun z => (mapGet summaries z).map (fun d => (z, d))))).take 10

/-- Per-ZIP accumulator built by `zipAnalysis` in `ZipCodeAnalyzer`
(src/unnamed/part_000, lines 1118-1132). -/
structure ZInfo where
  zip : Value
  rawRecords : List Bag
  count : ℕ
  totalStudents : JNum
  totalFemale : JNum
  totalMale : JNum
  totalPreK : JNum
  totalKG : JNum
  totalGrade1 : JNum
  totalGrade2 : JNum
  totalGrade3 : JNum
  processedTotals : List (String × JNum)
  deriving DecidableEq

/-- The fresh `zipAnalysis` accumulator. -/
def newZInfo (z : Value) : ZInfo :=
  { zip := z, rawRecords := [], count := 0, totalStudents := some 0,
    totalFemale := some 0, totalMale := some 0, totalPreK := some 0,
    totalKG := some 0, totalGrade1 := some 0, totalGrade2 := some 0,
    totalGrade3 := some 0, processedTotals := [] }

/-- The in-place mutation of one group entry for one feature in `zipAnalysis`
(src/unnamed/part_000, lines 1135-1165): the generic loop adds
`parseInt(String(value || 0))` for every property whose parse is a
non-negative number, then the named totals are updated with
`parseInt(field || 0)` and the student total is recomputed as female + male. -/
def zUpd (cur : ZInfo) (f : Feature) : ZInfo :=
  { zip := cur.zip
    rawRecords := cur.rawRecords ++ [f]
    count := cur.count + 1
    totalStudents := jadd (jadd cur.totalFemale (parseIntV (getProp f "Female")))
      (jadd cur.totalMale (parseIntV (getProp f "Male")))
    totalFemale := jadd cur.totalFemale (parseIntV (getProp f "Female"))
    totalMale := jadd cur.totalMale (parseIntV (getProp f "Male"))
    totalPreK := jadd cur.totalPreK (parseIntV (getProp f "Pre_K"))
    totalKG := jadd cur.totalKG (parseIntV (getProp f "KG"))
    totalGrade1 := jadd cur.totalGrade1 (parseIntV (getProp f "Grade_1"))
    totalGrade2 := jadd cur.totalGrade2 (parseIntV (getProp f "Grade_2"))
    totalGrade3 := jadd cur.totalGrade3 (parseIntV (getProp f "Grade_3"))
    processedTotals := f.foldl
      (fun pt kv =>
        if jGe0 (parseIntV kv.2) then mapAdd pt kv.1 (parseIntV kv.2) else pt)
      cur.processedTotals }

/-- One feature folded into the `zipAnalysis` map (src/unnamed/part_000, lines
1112-1166): a feature with no truthy ZIP alias is skipped; otherwise the
(possibly fresh) group entry is updated in place. -/
def zStep (m : List (Value × ZInfo)) (f : Feature) : List (Value × ZInfo) :=
  let zip := resolveZip f
  if truthy zip then
    mapSet m zip (zUpd ((mapGet m zip).getD (newZInfo zip)) f)
  else m

/-- The `zipAnalysis` group map (src/unnamed/part_000, lines 1107-1169).  The
component finally sorts the group records by key for display
(`localeCompare`), which no claim depends on; the map itself is modelled. -/
def zipData (features : List Feature) : List (Value × ZInfo) :=
  features.foldl zStep []

/-- Two digit characters read as a month number in 01..12. -/
def monthOk (a b : Char) : Bool :=
  let m := (a.toNat - 48) * 10 + (b.toNat - 48)
  decide (1 ≤ m) && decide (m ≤ 12)

/-- Two digit characters read as a day number in 01..31. -/
def dayOk (a b : Char) : Bool :=
  let d := (a.toNat - 48) * 10 + (b.toNat - 48)
  decide (1 ≤ d) && decide (d ≤ 31)

/-- `!isNaN(Date.parse(s))`, modelled on the ECMA-262 Date Time String Format
restricted to its date part: `YYYY`, `YYYY-MM`, or `YYYY-MM-DD` with in-range
month and day.  Engine-specific fallback formats and time suffixes are not
modelled. -/
def dateOk (s : String) : Bool :=
  match s.toList with
  | [y1, y2, y3, y4] => [y1, y2, y3, y4].all Char.isDigit
  | [y1, y2, y3, y4, '-', m1, m2] =>
      [y1, y2, y3, y4, m1, m2].all Char.isDigit && monthOk m1 m2
  | [y1, y2, y3, y4, '-', m1, m2, '-', d1, d2] =>
      [y1, y2, y3, y4, m1, m2, d1, d2].all Char.isDigit && monthOk m1 m2 && dayOk d1 d2
  | _ => false

/-- Property type inference of `dataAnalysis` (DataExplorer.tsx lines 39-49):
for a string value, `'date'` if `Date.parse` succeeds, else `'numeric'` if
`Number` succeeds, else `typeof`; for other values, `typeof`. -/
def inferType (v : Value) : String :=
  match v with
  | .str s => if dateOk s then "date" else if (numberOfString s).isSome then "numeric" else "string"
  | .num _ => "number"
  | .null => "object"
  | .undefined => "undefined"

/-- One property entry folded into the type map: the inferred type is recorded
only when the key has not been seen before (`if (!propertyTypes.has(key))`). -/
def typeStep (m : List (String × String)) (kv : String × Value) : List (String × String) :=
  if (mapGet m kv.1).isSome then m else m ++ [(kv.1, inferType kv.2)]

/-- The `propertyTypes` map of `dataAnalysis` (DataExplorer.tsx lines 28-52),
built over every property entry of every feature in order. -/
def propertyTypes (features : List Feature) : List (String × String) :=
  features.foldl (fun m props => props.foldl typeStep m) []

/-- Trim leading and trailing whitespace (String.prototype.trim). -/
def strTrim (s : String) : String :=
  String.mk (((s.toList.dropWhile Char.isWhitespace).reverse.dropWhile
    Char.isWhitespace).reverse)

/-- Lower-case a string (String.prototype.toLowerCase, ASCII). -/
def strLower (s : String) : String := String.mk (s.toList.map Char.toLower)

/-- Whether the first list begins the second. -/
def leadsWith : List Char → List Char → Bool
  | [], _ => true
  | _ :: _, [] => false
  | a :: as, b :: bs => a == b && leadsWith as bs

/-- Substring containment (String.prototype.includes). -/
def includesChars (needle : List Char) : List Char → Bool
  | [] => leadsWith needle []
  | h :: t => leadsWith needle (h :: t) || includesChars needle t

/-- The first `20` fractional decimal digits of a rational in `[0, 1)`,
stopping at the first exact zero remainder. -/
def fracDigits : ℕ → ℚ → List Char
  | 0, _ => []
  | k + 1, r =>
      if r = 0 then []
      else
        let d : ℤ := ⌊r * 10⌋
        Char.ofNat (48 + d.toNat) :: fracDigits k (r * 10 - (d : ℚ))

/-- JS `String(v)`.  Numbers are rendered in plain decimal, exactly when the
expansion terminates within 20 places (every value this pipeline produces);
longer expansions are truncated.  Exponent notation is not modelled. -/
def jsStr : Value → String
  | .str s => s
  | .null => "null"
  | .undefined => "undefined"
  | .num q =>
      let sgn := if q < 0 then "-" else ""
      let ip : ℕ := (⌊|q|⌋).toNat
      let ds := fracDigits 20 (|q| - (⌊|q|⌋ : ℚ))
      if ds.isEmpty then sgn ++ toString ip
      else sgn ++ toString ip ++ "." ++ String.mk ds

/-- The search predicate of `filteredData` (DataExplorer.tsx lines 76-82): a
feature matches when any property value's string form contains the lower-cased
search term. -/
def matchesSearch (searchTerm : String) (f : Feature) : Bool :=
  f.any (fun kv => includesChars (strLower searchTerm).toList (strLower (jsStr kv.2)).toList)

/-- Filter and paginate (DataExplorer.tsx lines 70-94).  In the component
`itemsPerPage` is pinned to 10 by `useState(10)` and `currentPage` starts at 1;
both are kept as arguments of the projection. -/
def filteredData (features : List Feature) (searchTerm : String)
    (currentPage itemsPerPage : ℕ) : List Feature × ℕ :=
  let filtered :=
    if strTrim searchTerm = "" then features
    else features.filter (matchesSearch searchTerm)
  let totalPages := (filtered.length + itemsPerPage - 1) / itemsPerPage
  let startIndex := (currentPage - 1) * itemsPerPage
  ((filtered.drop startIndex).take itemsPerPage, totalPages)

/-- The filtered feature count that `totalPages` is computed from. -/
def filteredCount (features : List Feature) (searchTerm : String) : ℕ :=
  (if strTrim searchTerm = "" then features
   else features.filter (matchesSearch searchTerm)).length

theorem jadd_zero_right (x : JNum) : jadd x (some 0) = x := by
  cases x <;> simp [jadd]

theorem jadd_zero_left (x : JNum) : jadd (some 0) x = x := by
  cases x <;> simp [jadd]

theorem jadd_assoc (x y z : JNum) : jadd (jadd x y) z = jadd x (jadd y z) := by
  cases x <;> cases y <;> cases z <;> simp [jadd, add_assoc]

@[simp] theorem jsum_nil : jsum [] = some 0 := rfl

@[simp] theorem jsum_cons (a : JNum) (l : List JNum) : jsum (a :: l) = jadd a (jsum l) := rfl

theorem jsum_append (l₁ l₂ : List JNum) : jsum (l₁ ++ l₂) = jadd (jsum l₁) (jsum l₂) := by
  induction l₁ with
  | nil => simp [jadd_zero_left]
  | cons a t ih => simp [ih, jadd_assoc]

@[simp] theorem mapGet_nil {κ ν : Type} [DecidableEq κ] (k : κ) :
    mapGet ([] : List (κ × ν)) k = none := rfl

theorem mapGet_cons {κ ν : Type} [DecidableEq κ] (a : κ) (b : ν) (m : List (κ × ν)) (k : κ) :
    mapGet ((a, b) :: m) k = if a = k then some b else mapGet m k := by
  by_cases h : a = k <;> simp [mapGet, List.find?, h]

theorem mapGet_mapSet_self {κ ν : Type} [DecidableEq κ] (m : List (κ × ν)) (k : κ) (v : ν) :
    mapGet (mapSet m k v) k = some v := by
  induction m with
  | nil => simp [mapSet, mapGet_cons]
  | cons kv t ih =>
      obtain ⟨a, b⟩ := kv
      by_cases h : a = k <;> simp [mapSet, h, mapGet_cons, ih]

theorem mapGet_mapSet_ne {κ ν : Type} [DecidableEq κ] (m : List (κ × ν)) (k k' : κ) (v : ν)
    (h : k' ≠ k) : mapGet (mapSet m k v) k' = mapGet m k' := by
  induction m with
  | nil =>
      have hne : ¬k = k' := fun hh => h hh.symm
      simp [mapSet, mapGet_cons, hne]
  | cons kv t ih =>
      obtain ⟨a, b⟩ := kv
      by_cases ha : a = k
      · subst ha
        have hne : ¬a = k' := fun hh => h hh.symm
        simp [mapSet, mapGet_cons, hne]
      · simp [mapSet, ha, mapGet_cons, ih]

theorem getJ_nil (k : String) : getJ [] k = some 0 := rfl

theorem getJ_mapAdd_self (m : List (String × JNum)) (k : String) (v : JNum) :
    getJ (mapAdd m k v) k = jadd (getJ m k) v := by
  simp [mapAdd, getJ, mapGet_mapSet_self]

theorem getJ_mapAdd_ne (m : List (String × JNum)) (k k' : String) (v : JNum) (h : k' ≠ k) :
    getJ (mapAdd m k v) k' = getJ m k' := by
  simp [mapAdd, getJ, mapGet_mapSet_ne m k k' _ h]

/-- The total contribution of all entries of `src` carrying key `k`. -/
def keySum (src : List (String × JNum)) (k : String) : JNum :=
  jsum ((src.filter (fun kv => decide (kv.1 = k))).map Prod.snd)

@[simp] theorem keySum_nil (k : String) : keySum [] k = some 0 := rfl

theorem keySum_cons (a : String) (b : JNum) (t : List (String × JNum)) (k : String) :
    keySum ((a, b) :: t) k = if a = k then jadd b (keySum t k) else keySum t k := by
  by_cases h : a = k <;> simp [keySum, h]

theorem getJ_mapAddAll (m src : List (String × JNum)) (k : String) :
    getJ (mapAddAll m src) k = jadd (getJ m k) (keySum src k) := by
  induction src generalizing m with
  | nil => simp [mapAddAll, jadd_zero_right]
  | cons kv t ih =>
      obtain ⟨a, b⟩ := kv
      have hstep : mapAddAll m ((a, b) :: t) = mapAddAll (mapAdd m a b) t := rfl
      rw [hstep, ih, keySum_cons]
      by_cases h : a = k
      · subst h
        rw [getJ_mapAdd_self, if_pos rfl, jadd_assoc]
      · rw [getJ_mapAdd_ne m a k b (fun hh => h hh.symm), if_neg h]

theorem keySum_of_not_mem (src : List (String × JNum)) (k : String)
    (h : k ∉ src.map Prod.fst) : keySum src k = some 0 := by
  induction src with
  | nil => rfl
  | cons kv t ih =>
      obtain ⟨a, b⟩ := kv
      simp only [List.map_cons, List.mem_cons] at h
      push_neg at h
      rw [keySum_cons, if_neg (fun hh => h.1 hh.symm), ih h.2]

theorem keySum_of_nodup (src : List (String × JNum)) (k : String)
    (h : (src.map Prod.fst).Nodup) : keySum src k = getJ src k := by
  induction src with
  | nil => rfl
  | cons kv t ih =>
      obtain ⟨a, b⟩ := kv
      simp only [List.map_cons, List.nodup_cons] at h
      rw [keySum_cons, getJ, mapGet_cons]
      by_cases ha : a = k
      · subst ha
        rw [if_pos rfl, if_pos rfl, keySum_of_not_mem t a h.1, jadd_zero_right]
        rfl
      · rw [if_neg ha, if_neg ha, ih h.2]
        rfl

/-- The group entries a selection resolves to, in selection order; keys with no
matching group entry are dropped. -/
def resolvedGroups (sel : List Value) (summaries : List (Value × ZipInfo)) : List ZipInfo :=
  sel.filterMap (fun z => mapGet summaries z)

/-- Element-wise sum of a list of group entries on top of an accumulator. -/
def addAgg (a : Agg) (r : List ZipInfo) : Agg :=
  { zips := a.zips
    totalStudents := jadd a.totalStudents (jsum (r.map ZipInfo.totalStudents))
    totalPopulation := jadd a.totalPopulation (jsum (r.map ZipInfo.totalPopulation))
    totalFemale := jadd a.totalFemale (jsum (r.map ZipInfo.totalFemale))
    totalMale := jadd a.totalMale (jsum (r.map ZipInfo.totalMale))
    totalRecords := a.totalRecords + (r.map ZipInfo.count).sum
    totalSchools := jadd a.totalSchools (jsum (r.map schoolsContrib))
    processedTotals := r.foldl (fun m g => mapAddAll m g.processedTotals) a.processedTotals }

theorem addAgg_nil (a : Agg) : addAgg a [] = a := by
  cases a
  simp [addAgg, jadd_zero_right]

theorem addAgg_aggStep (a : Agg) (g : ZipInfo) (r : List ZipInfo) :
    addAgg (aggStep a g) r = addAgg a (g :: r) := by
  cases a
  simp [addAgg, aggStep, jadd_assoc, Nat.add_assoc, mapAddAll]

@[simp] theorem resolvedGroups_nil (summaries : List (Value × ZipInfo)) :
    resolvedGroups [] summaries = [] := rfl

theorem resolvedGroups_cons (z : Value) (t : List Value) (summaries : List (Value × ZipInfo)) :
    resolvedGroups (z :: t) summaries =
      match mapGet summaries z with
      | some g => g :: resolvedGroups t summaries
      | none => resolvedGroups t summaries := by
  cases h : mapGet summaries z <;> simp [resolvedGroups, List.filterMap_cons, h]

theorem resolvedGroups_append (s t : List Value) (summaries : List (Value × ZipInfo)) :
    resolvedGroups (s ++ t) summaries =
      resolvedGroups s summaries ++ resolvedGroups t summaries := by
  simp [resolvedGroups, List.filterMap_append]

theorem aggFold_eq (sel : List Value) (summaries : List (Value × ZipInfo)) (a : Agg) :
    sel.foldl (aggSelStep summaries) a = addAgg a (resolvedGroups sel summaries) := by
  induction sel generalizing a with
  | nil => simp [addAgg_nil]
  | cons z t ih =>
      rw [List.foldl_cons, resolvedGroups_cons]
      cases h : mapGet summaries z with
      | some g => simp [aggSelStep, h, ih, addAgg_aggStep]
      | none => simp [aggSelStep, h, ih]

theorem getJ_addAll_fold (r : List ZipInfo) (m : List (String × JNum)) (k : String) :
    getJ (r.foldl (fun acc g => mapAddAll acc g.processedTotals) m) k
      = jadd (getJ m k) (jsum (r.map (fun g => keySum g.processedTotals k))) := by
  induction r generalizing m with
  | nil => simp [jadd_zero_right]
  | cons g t ih =>
      rw [List.foldl_cons, ih, getJ_mapAddAll]
      simp [jadd_assoc]

theorem aggSel_totals (sel : List Value) (summaries : List (Value × ZipInfo)) :
    (aggOrZero (aggregatedData sel summaries)).totalStudents
        = jsum ((resolvedGroups sel summaries).map ZipInfo.totalStudents) ∧
    (aggOrZero (aggregatedData sel summaries)).totalPopulation
        = jsum ((resolvedGroups sel summaries).map ZipInfo.totalPopulation) ∧
    (aggOrZero (aggregatedData sel summaries)).totalFemale
        = jsum ((resolvedGroups sel summaries).map ZipInfo.totalFemale) ∧
    (aggOrZero (aggregatedData sel summaries)).totalMale
        = jsum ((resolvedGroups sel summaries).map ZipInfo.totalMale) ∧
    (aggOrZero (aggregatedData sel summaries)).totalRecords
        = ((resolvedGroups sel summaries).map ZipInfo.count).sum ∧
    (aggOrZero (aggregatedData sel summaries)).totalSchools
        = jsum ((resolvedGroups sel summaries).map schoolsContrib) ∧
    ∀ k, getJ (aggOrZero (aggregatedData sel summaries)).processedTotals k
        = jsum ((resolvedGroups sel summaries).map (fun g => keySum g.processedTotals k)) := by
  by_cases hsel : sel.isEmpty = true
  · have hnil : sel = [] := by
      cases sel with
      | nil => rfl
      | cons a t => simp [List.isEmpty] at hsel
    subst hnil
    simp [aggregatedData, aggOrZero, initAgg, getJ]
  · have hagg : aggOrZero (aggregatedData sel summaries)
        = addAgg (initAgg sel) (resolvedGroups sel summaries) := by
      simp [aggregatedData, hsel, aggOrZero, aggFold_eq]
    rw [hagg]
    refine ⟨?_, ?_, ?_, ?_, ?_, ?_, fun k => ?_⟩
    · simp [addAgg, initAgg, jadd_zero_left]
    · simp [addAgg, initAgg, jadd_zero_left]
    · simp [addAgg, initAgg, jadd_zero_left]
    · simp [addAgg, initAgg, jadd_zero_left]
    · simp [addAgg, initAgg]
    · simp [addAgg, initAgg, jadd_zero_left]
    · have hpt : (addAgg (initAgg sel) (resolvedGroups sel summaries)).processedTotals
          = (resolvedGroups sel summaries).foldl (fun m g => mapAddAll m g.processedTotals) [] := rfl
      rw [hpt, getJ_addAll_fold, getJ_nil, jadd_zero_left]

set_option maxRecDepth 8000

/-- C1 (amended): for every selection that yields a summary, the student,
population, female, male totals, the record count, and every entry of the
generic per-key sum map are the element-wise sums, over the selected keys that
resolve to a present group aggregate, of the corresponding group totals, and
keys with no matching aggregate contribute nothing and cause no error; the
school-count total, however, sums the per-group value
`Math.round(schools / count) || 0` (the rounded per-record average), not the
group's school total. -/
theorem c1_aggregated_totals (sel : List Value) (summaries : List (Value × ZipInfo)) (agg : Agg)
    (h : aggregatedData sel summaries = some agg)
    (hnd : ∀ g ∈ resolvedGroups sel summaries, (g.processedTotals.map Prod.fst).Nodup) :
    agg.totalStudents = jsum ((resolvedGroups sel summaries).map ZipInfo.totalStudents) ∧
    agg.totalPopulation = jsum ((resolvedGroups sel summaries).map ZipInfo.totalPopulation) ∧
    agg.totalFemale = jsum ((resolvedGroups sel summaries).map ZipInfo.totalFemale) ∧
    agg.totalMale = jsum ((resolvedGroups sel summaries).map ZipInfo.totalMale) ∧
    agg.totalRecords = ((resolvedGroups sel summaries).map ZipInfo.count).sum ∧
    agg.totalSchools = jsum ((resolvedGroups sel summaries).map schoolsContrib) ∧
    ∀ k, getJ agg.processedTotals k
        = jsum ((resolvedGroups sel summaries).map (fun g => getJ g.processedTotals k)) := by
  have hzero : aggOrZero (aggregatedData sel summaries) = agg := by
    rw [h]; rfl
  obtain ⟨h1, h2, h3, h4, h5, h6, h7⟩ := aggSel_totals sel summaries
  rw [hzero] at h1 h2 h3 h4 h5 h6 h7
  refine ⟨h1, h2, h3, h4, h5, h6, fun k => ?_⟩
  rw [h7 k]
  congr 1
  exact List.map_congr_left (fun g hg => keySum_of_nodup _ _ (hnd g hg))

/-- C1 is false as stated for the school-count total: with two records in group
"75" carrying school counts 2 and 3, the group's school total is 5, but the
aggregated selection reports `Math.round(5 / 2) || 0 = 3`, not the element-wise
sum 5. -/
theorem c1_counterexample :
    (aggregatedData [Value.str "75"]
        (zipSummaries [[("Zip", Value.str "75"), ("Schl_Cn", Value.str "2")],
          [("Zip", Value.str "75"), ("Schl_Cn", Value.str "3")]])).map Agg.totalSchools
      = some (some 3) ∧
    jsum ((resolvedGroups [Value.str "75"]
        (zipSummaries [[("Zip", Value.str "75"), ("Schl_Cn", Value.str "2")],
          [("Zip", Value.str "75"), ("Schl_Cn", Value.str "3")]])).map ZipInfo.schools)
      = some 5 ∧
    (some (3 : ℚ) : JNum) ≠ some 5 := by
  refine ⟨?_, ?_, ?_⟩ <;> with_unfolding_all decide

/-- Witness for C1 at a concrete one-feature selection. -/
theorem c1_witness :
    (aggOrZero (aggregatedData [Value.str "75"]
        (zipSummaries [[("Zip", Value.str "75"), ("Female", Value.str "4")]]))).totalFemale
      = jsum ((resolvedGroups [Value.str "75"]
          (zipSummaries [[("Zip", Value.str "75"), ("Female", Value.str "4")]])).map
            ZipInfo.totalFemale) :=
  (c1_aggregated_totals [Value.str "75"]
    (zipSummaries [[("Zip", Value.str "75"), ("Female", Value.str "4")]])
    (aggOrZero (aggregatedData [Value.str "75"]
      (zipSummaries [[("Zip", Value.str "75"), ("Female", Value.str "4")]])))
    (by with_unfolding_all decide) (by with_unfolding_all decide)).2.2.1

/-- C2: aggregate additivity — for disjoint selections over one group index,
every total field of the union's summary (record count, students, population,
female, male, schools, and every generic per-key sum) is the field-wise sum of
the two summaries' fields, reading the absent empty-selection summary as
all-zero. -/
theorem c2_additivity (s1 s2 : List Value) (summaries : List (Value × ZipInfo))
    (hdisj : ∀ z ∈ s1, z ∉ s2) :
    (aggOrZero (aggregatedData (s1 ++ s2) summaries)).totalRecords
        = (aggOrZero (aggregatedData s1 summaries)).totalRecords
          + (aggOrZero (aggregatedData s2 summaries)).totalRecords ∧
    (aggOrZero (aggregatedData (s1 ++ s2) summaries)).totalStudents
        = jadd (aggOrZero (aggregatedData s1 summaries)).totalStudents
            (aggOrZero (aggregatedData s2 summaries)).totalStudents ∧
    (aggOrZero (aggregatedData (s1 ++ s2) summaries)).totalPopulation
        = jadd (aggOrZero (aggregatedData s1 summaries)).totalPopulation
            (aggOrZero (aggregatedData s2 summaries)).totalPopulation ∧
    (aggOrZero (aggregatedData (s1 ++ s2) summaries)).totalFemale
        = jadd (aggOrZero (aggregatedData s1 summaries)).totalFemale
            (aggOrZero (aggregatedData s2 summaries)).totalFemale ∧
    (aggOrZero (aggregatedData (s1 ++ s2) summaries)).totalMale
        = jadd (aggOrZero (aggregatedData s1 summaries)).totalMale
            (aggOrZero (aggregatedData s2 summaries)).totalMale ∧
    (aggOrZero (aggregatedData (s1 ++ s2) summaries)).totalSchools
        = jadd (aggOrZero (aggregatedData s1 summaries)).totalSchools
            (aggOrZero (aggregatedData s2 summaries)).totalSchools ∧
    ∀ k, getJ (aggOrZero (aggregatedData (s1 ++ s2) summaries)).processedTotals k
        = jadd (getJ (aggOrZero (aggregatedData s1 summaries)).processedTotals k)
            (getJ (aggOrZero (aggregatedData s2 summaries)).processedTotals k) := by
  obtain ⟨u1, u2, u3, u4, u5, u6, u7⟩ := aggSel_totals (s1 ++ s2) summaries
  obtain ⟨a1, a2, a3, a4, a5, a6, a7⟩ := aggSel_totals s1 summaries
  obtain ⟨b1, b2, b3, b4, b5, b6, b7⟩ := aggSel_totals s2 summaries
  rw [u1, u2, u3, u4, u5, u6, a1, a2, a3, a4, a5, a6, b1, b2, b3, b4, b5, b6]
  rw [resolvedGroups_append]
  refine ⟨?_, ?_, ?_, ?_, ?_, ?_, fun k => ?_⟩
  · simp [List.map_append]
  · simp [List.map_append, jsum_append]
  · simp [List.map_append, jsum_append]
  · simp [List.map_append, jsum_append]
  · simp [List.map_append, jsum_append]
  · simp [List.map_append, jsum_append]
  · rw [u7 k, a7 k, b7 k, resolvedGroups_append]
    simp [List.map_append, jsum_append]

/-- Witness for C2 at concrete disjoint singleton selections. -/
theorem c2_witness :
    (aggOrZero (aggregatedData ([Value.str "1"] ++ [Value.str "2"])
        (zipSummaries [[("Zip", Value.str "1")], [("Zip", Value.str "2")]]))).totalRecords
      = (aggOrZero (aggregatedData [Value.str "1"]
          (zipSummaries [[("Zip", Value.str "1")], [("Zip", Value.str "2")]]))).totalRecords
        + (aggOrZero (aggregatedData [Value.str "2"]
            (zipSummaries [[("Zip", Value.str "1")], [("Zip", Value.str "2")]]))).totalRecords :=
  (c2_additivity [Value.str "1"] [Value.str "2"]
    (zipSummaries [[("Zip", Value.str "1")], [("Zip", Value.str "2")]])
    (by with_unfolding_all decide)).1

/-- C5: a summary whose male (denominator) total is zero yields the "N/A"
sentinel for the gender ratio — never an exception, Infinity, or NaN — and a
summary whose school-count total is zero yields an average-students-per-school
of 0 rather than a failure. -/
theorem c5_divide_by_zero (a b : Agg) :
    (a.totalMale = some 0 → genderRatio a = RatioResult.na) ∧
    (b.totalSchools = some 0 → avgStudentsPerSchool b = some 0) := by
  constructor
  · intro h
    simp [genderRatio, jPos, h]
  · intro h
    simp [avgStudentsPerSchool, jPos, h]

/-- Witness for C5 at the all-zero summary. -/
theorem c5_witness :
    genderRatio (initAgg []) = RatioResult.na ∧
    avgStudentsPerSchool (initAgg []) = some 0 :=
  ⟨(c5_divide_by_zero (initAgg []) (initAgg [])).1 rfl,
   (c5_divide_by_zero (initAgg []) (initAgg [])).2 rfl⟩

/-- C6: the empty selection never fails — `aggregatedData` returns the defined
"no selection" value (the summary is absent), which reads as all-zero totals
with a not-applicable gender ratio. -/
theorem c6_empty_selection (summaries : List (Value × ZipInfo)) :
    aggregatedData [] summaries = none ∧
    aggOrZero (aggregatedData [] summaries) = initAgg [] ∧
    (initAgg []).totalStudents = some 0 ∧
    (initAgg []).totalPopulation = some 0 ∧
    (initAgg []).totalFemale = some 0 ∧
    (initAgg []).totalMale = some 0 ∧
    (initAgg []).totalRecords = 0 ∧
    (initAgg []).totalSchools = some 0 ∧
    (∀ k, getJ (initAgg []).processedTotals k = some 0) ∧
    genderRatio (initAgg []) = RatioResult.na := by
  refine ⟨rfl, rfl, rfl, rfl, rfl, rfl, rfl, rfl, fun k => rfl, rfl⟩

/-- C8: the group key probes exactly the three alias names "Zip", "ZIP",
"zipcode" in that fixed priority order and takes the first non-empty (truthy)
value — in particular a non-empty "Zip" value wins over any "ZIP" value — and
a feature carrying none of the three aliases is silently excluded from every
group of both group folds, never an error. -/
theorem c8_alias_priority (p : Bag) (m1 : List (Value × ZipInfo)) (m2 : List (Value × ZInfo)) :
    (truthy (getProp p "Zip") = true → resolveZip p = getProp p "Zip") ∧
    (truthy (getProp p "Zip") = false → truthy (getProp p "ZIP") = true →
      resolveZip p = getProp p "ZIP") ∧
    (truthy (getProp p "Zip") = false → truthy (getProp p "ZIP") = false →
      resolveZip p = getProp p "zipcode") ∧
    (getProp p "Zip" = .undefined → getProp p "ZIP" = .undefined → getProp p "zipcode" = .undefined →
      zipStep m1 p = m1 ∧ zStep m2 p = m2) := by
  refine ⟨fun h => ?_, fun h1 h2 => ?_, fun h1 h2 => ?_, fun h1 h2 h3 => ?_⟩
  · simp [resolveZip, vOr, h]
  · simp [resolveZip, vOr, h1, h2]
  · simp [resolveZip, vOr, h1, h2]
  · have hz : resolveZip p = Value.undefined := by simp [resolveZip, vOr, h1, h2, h3, truthy]
    exact ⟨by simp [zipStep, hz, truthy], by simp [zStep, hz, truthy]⟩

/-- Witness for C8: a concrete feature with differing "Zip" and "ZIP" values
resolves to the "Zip" value, and a concrete feature with no alias leaves both
group maps untouched. -/
theorem c8_witness :
    resolveZip [("Zip", Value.str "1"), ("ZIP", Value.str "2")] = Value.str "1" ∧
    zipStep [] [("name", Value.str "x")] = [] ∧
    zStep [] [("name", Value.str "x")] = [] := by
  refine ⟨?_, ?_, ?_⟩
  · exact ((c8_alias_priority [("Zip", Value.str "1"), ("ZIP", Value.str "2")] [] []).1
      (by with_unfolding_all decide)).trans (by with_unfolding_all decide)
  · exact ((c8_alias_priority [("name", Value.str "x")] [] []).2.2.2
      (by with_unfolding_all decide) (by with_unfolding_all decide)
      (by with_unfolding_all decide)).1
  · exact ((c8_alias_priority [("name", Value.str "x")] [] []).2.2.2
      (by with_unfolding_all decide) (by with_unfolding_all decide)
      (by with_unfolding_all decide)).2

theorem jadd_none_right (x : JNum) : jadd x none = none := by cases x <;> rfl

theorem getJ_essential_fold (f : Feature) (ks : List String) (pt : List (String × JNum))
    (k : String) (hk : jGe0 (numV (getProp f k)) = false) :
    getJ (ks.foldl
        (fun pt' k' =>
          if jGe0 (numV (getProp f k')) then mapAdd pt' k' (numV (getProp f k')) else pt')
        pt) k
      = getJ pt k := by
  induction ks generalizing pt with
  | nil => rfl
  | cons a t ih =>
      rw [List.foldl_cons]
      by_cases hc : jGe0 (numV (getProp f a)) = true
      · rw [if_pos hc, ih]
        have ha : a ≠ k := by
          intro hh
          rw [hh, hk] at hc
          exact Bool.false_ne_true hc
        exact getJ_mapAdd_ne pt a k _ (fun hh => ha hh.symm)
      · rw [if_neg hc, ih]

/-- The group entry a feature is folded into in `zipSummaries`: the stored
entry, or the fresh one installed on first sight. -/
def curZipInfo (m : List (Value × ZipInfo)) (f : Feature) : ZipInfo :=
  (mapGet m (resolveZip f)).getD (newZipInfo (resolveZip f))

/-- The group entry a feature is folded into in `zipAnalysis`. -/
def curZInfo (m : List (Value × ZInfo)) (f : Feature) : ZInfo :=
  (mapGet m (resolveZip f)).getD (newZInfo (resolveZip f))

/-- C4 (amended): in both group folds, a missing or absent field contributes
zero to its named total and the feature always remains counted; a value that
does not parse as a number is skipped only in the generic per-key totals map —
for a named total the coerced NaN poisons that specific total, while the other
named totals and the feature's group membership are unaffected. -/
theorem c4_parsing_policy (m1 : List (Value × ZipInfo)) (m2 : List (Value × ZInfo))
    (f : Feature) (ht : truthy (resolveZip f) = true) :
    (∃ upd, mapGet (zipStep m1 f) (resolveZip f) = some upd ∧
      upd.count = (curZipInfo m1 f).count + 1 ∧
      (getProp f "Female" = .undefined → upd.totalFemale = (curZipInfo m1 f).totalFemale) ∧
      (getProp f "pop" = .undefined → upd.totalPopulation = (curZipInfo m1 f).totalPopulation) ∧
      (getProp f "Schl_Cn" = .undefined → upd.schools = (curZipInfo m1 f).schools) ∧
      upd.totalMale = jadd (curZipInfo m1 f).totalMale (numV (getProp f "Male")) ∧
      (numV (getProp f "Female") = none → upd.totalFemale = none) ∧
      (∀ k, jGe0 (numV (getProp f k)) = false →
        getJ upd.processedTotals k = getJ (curZipInfo m1 f).processedTotals k)) ∧
    (∃ upd2, mapGet (zStep m2 f) (resolveZip f) = some upd2 ∧
      upd2.count = (curZInfo m2 f).count + 1 ∧
      (getProp f "Female" = .undefined → upd2.totalFemale = (curZInfo m2 f).totalFemale) ∧
      (getProp f "Pre_K" = .undefined → upd2.totalPreK = (curZInfo m2 f).totalPreK) ∧
      upd2.totalMale = jadd (curZInfo m2 f).totalMale (parseIntV (getProp f "Male")) ∧
      (parseIntV (getProp f "Female") = none → upd2.totalFemale = none)) := by
  constructor
  · refine ⟨zipUpd (curZipInfo m1 f) f, ?_, rfl, fun h => ?_, fun h => ?_, fun h => ?_,
      rfl, fun h => ?_, fun k hk => ?_⟩
    · have hstep : zipStep m1 f = mapSet m1 (resolveZip f) (zipUpd (curZipInfo m1 f) f) := by
        simp [zipStep, ht, curZipInfo]
      rw [hstep]
      exact mapGet_mapSet_self _ _ _
    · show jadd _ (numV (getProp f "Female")) = _
      rw [h]
      exact jadd_zero_right _
    · show jadd _ (numV (getProp f "pop")) = _
      rw [h]
      exact jadd_zero_right _
    · show jadd _ (numV (getProp f "Schl_Cn")) = _
      rw [h]
      exact jadd_zero_right _
    · show jadd _ (numV (getProp f "Female")) = none
      rw [h]
      exact jadd_none_right _
    · exact getJ_essential_fold f essentialFields _ k hk
  · refine ⟨zUpd (curZInfo m2 f) f, ?_, rfl, fun h => ?_, fun h => ?_, rfl, fun h => ?_⟩
    · have hstep : zStep m2 f = mapSet m2 (resolveZip f) (zUpd (curZInfo m2 f) f) := by
        simp [zStep, ht, curZInfo]
      rw [hstep]
      exact mapGet_mapSet_self _ _ _
    · show jadd _ (parseIntV (getProp f "Female")) = _
      rw [h]
      exact jadd_zero_right _
    · show jadd _ (parseIntV (getProp f "Pre_K")) = _
      rw [h]
      exact jadd_zero_right _
    · show jadd _ (parseIntV (getProp f "Female")) = none
      rw [h]
      exact jadd_none_right _

/-- C4 is false as stated: a feature whose "Female" value is the non-numeric
string "abc" does not have that value skipped for the female sum — the NaN
poisons the group's female total (and the derived student total), while the
male total and record count stay intact. -/
theorem c4_counterexample :
    (mapGet (zipSummaries [[("Zip", Value.str "75"), ("Female", Value.str "abc"),
        ("Male", Value.str "5")]]) (Value.str "75")).map
        (fun i => (i.totalFemale, i.totalStudents, i.totalMale, i.count))
      = some (none, none, some 5, 1) ∧
    (none : JNum) ≠ some 0 := by
  constructor
  · with_unfolding_all decide
  · with_unfolding_all decide

/-- Witness for C4 at a concrete feature with an absent "Female" field and a
present "Male" field. -/
theorem c4_witness :
    (∃ upd, mapGet (zipStep [] [("Zip", Value.str "75"), ("Male", Value.str "5")])
        (resolveZip [("Zip", Value.str "75"), ("Male", Value.str "5")]) = some upd ∧
      upd.count = (curZipInfo [] [("Zip", Value.str "75"), ("Male", Value.str "5")]).count + 1 ∧
      (getProp [("Zip", Value.str "75"), ("Male", Value.str "5")] "Female" = .undefined →
        upd.totalFemale
          = (curZipInfo [] [("Zip", Value.str "75"), ("Male", Value.str "5")]).totalFemale) ∧
      (getProp [("Zip", Value.str "75"), ("Male", Value.str "5")] "pop" = .undefined →
        upd.totalPopulation
          = (curZipInfo [] [("Zip", Value.str "75"), ("Male", Value.str "5")]).totalPopulation) ∧
      (getProp [("Zip", Value.str "75"), ("Male", Value.str "5")] "Schl_Cn" = .undefined →
        upd.schools = (curZipInfo [] [("Zip", Value.str "75"), ("Male", Value.str "5")]).schools) ∧
      upd.totalMale
        = jadd (curZipInfo [] [("Zip", Value.str "75"), ("Male", Value.str "5")]).totalMale
            (numV (getProp [("Zip", Value.str "75"), ("Male", Value.str "5")] "Male")) ∧
      (numV (getProp [("Zip", Value.str "75"), ("Male", Value.str "5")] "Female") = none →
        upd.totalFemale = none) ∧
      (∀ k, jGe0 (numV (getProp [("Zip", Value.str "75"), ("Male", Value.str "5")] k)) = false →
        getJ upd.processedTotals k
          = getJ (curZipInfo [] [("Zip", Value.str "75"),
              ("Male", Value.str "5")]).processedTotals k)) ∧
    (∃ upd2, mapGet (zStep [] [("Zip", Value.str "75"), ("Male", Value.str "5")])
        (resolveZip [("Zip", Value.str "75"), ("Male", Value.str "5")]) = some upd2 ∧
      upd2.count = (curZInfo [] [("Zip", Value.str "75"), ("Male", Value.str "5")]).count + 1 ∧
      (getProp [("Zip", Value.str "75"), ("Male", Value.str "5")] "Female" = .undefined →
        upd2.totalFemale
          = (curZInfo [] [("Zip", Value.str "75"), ("Male", Value.str "5")]).totalFemale) ∧
      (getProp [("Zip", Value.str "75"), ("Male", Value.str "5")] "Pre_K" = .undefined →
        upd2.totalPreK
          = (curZInfo [] [("Zip", Value.str "75"), ("Male", Value.str "5")]).totalPreK) ∧
      upd2.totalMale
        = jadd (curZInfo [] [("Zip", Value.str "75"), ("Male", Value.str "5")]).totalMale
            (parseIntV (getProp [("Zip", Value.str "75"), ("Male", Value.str "5")] "Male")) ∧
      (parseIntV (getProp [("Zip", Value.str "75"), ("Male", Value.str "5")] "Female") = none →
        upd2.totalFemale = none)) :=
  c4_parsing_policy [] [] [("Zip", Value.str "75"), ("Male", Value.str "5")]
    (by with_unfolding_all decide)

theorem mapGet_append_single {κ ν : Type} [DecidableEq κ]
    (m : List (κ × ν)) (a : κ) (b : ν) (k : κ) :
    mapGet (m ++ [(a, b)]) k
      = if a = k then (mapGet m k).or (some b) else mapGet m k := by
  induction m with
  | nil => by_cases h : a = k <;> simp [mapGet_cons, h]
  | cons kv t ih =>
      obtain ⟨x, y⟩ := kv
      by_cases hx : x = k
      · by_cases h : a = k <;> simp [List.cons_append, mapGet_cons, hx, h]
      · simpa [List.cons_append, mapGet_cons, hx] using ih

theorem mapGet_typeFold (l : List (String × Value)) (m : List (String × String)) (k : String) :
    mapGet (l.foldl typeStep m) k
      = (mapGet m k).or
          ((l.find? (fun kv => decide (kv.1 = k))).map (fun kv => inferType kv.2)) := by
  induction l generalizing m with
  | nil => simp
  | cons kv t ih =>
      rw [List.foldl_cons]
      by_cases hc : (mapGet m kv.1).isSome = true
      · have hstep : typeStep m kv = m := by simp [typeStep, hc]
        rw [hstep, ih]
        by_cases hk : kv.1 = k
        · obtain ⟨v, hv⟩ := Option.isSome_iff_exists.mp (hk ▸ hc)
          simp [List.find?, hk, hv]
        · simp [List.find?, hk]
      · have hstep : typeStep m kv = m ++ [(kv.1, inferType kv.2)] := by simp [typeStep, hc]
        have hnone : mapGet m kv.1 = none := Option.not_isSome_iff_eq_none.mp (by simp [hc])
        rw [hstep, ih, mapGet_append_single]
        by_cases hk : kv.1 = k
        · rw [hk] at hnone
          simp [List.find?, hk, hnone]
        · simp [List.find?, hk]

theorem foldl_typeStep_flat (features : List Feature) (m : List (String × String)) :
    features.foldl (fun acc props => props.foldl typeStep acc) m
      = (features.flatMap id).foldl typeStep m := by
  induction features generalizing m with
  | nil => rfl
  | cons p t ih => rw [List.foldl_cons, ih, List.flatMap_cons, List.foldl_append, id]

/-- C3 (amended): the type recorded by the discovered schema for a property key
is determined solely by the key's first occurrence over all features in order,
and is never revised by later occurrences; the classification of a string
value, however, attempts a date parse first, then a numeric parse, and only
then falls back to the raw primitive type. -/
theorem c3_first_occurrence (features : List Feature) (k : String) :
    mapGet (propertyTypes features) k
      = ((features.flatMap id).find? (fun kv => decide (kv.1 = k))).map
          (fun kv => inferType kv.2) := by
  show mapGet (features.foldl (fun acc props => props.foldl typeStep acc) []) k = _
  rw [foldl_typeStep_flat, mapGet_typeFold]
  simp

/-- Classifier modelled from the spec claim wording for C3: attempt a numeric
parse first, then a date parse, else raw text; to be compared against the
source's `inferType`. -/
def claimClassify : Value → String
  | .str s =>
      if (numberOfString s).isSome then "numeric"
      else if dateOk s then "date" else "string"
  | .num _ => "number"
  | .null => "object"
  | .undefined => "undefined"

/-- C3 is false as stated on the classification order: the string "2015" both
parses as a number and as an ISO date, the claim's numeric-first order labels
it "numeric", but the code tries `Date.parse` first and records "date". -/
theorem c3_counterexample :
    mapGet (propertyTypes [[("k", Value.str "2015")]]) "k" = some "date" ∧
    claimClassify (Value.str "2015") = "numeric" ∧
    ("date" : String) ≠ "numeric" := by
  refine ⟨?_, ?_, ?_⟩ <;> with_unfolding_all decide

theorem mem_insertStable {α : Type} (le : α → α → Bool) (x y : α) (l : List α) :
    y ∈ insertStable le x l ↔ y = x ∨ y ∈ l := by
  induction l with
  | nil => simp [insertStable]
  | cons a t ih =>
      by_cases h : (le a x && !le x a) = true
      · simp only [insertStable, h, if_true, List.mem_cons, ih]
        try tauto
      · simp only [insertStable, h, if_false, Bool.false_eq_true, List.mem_cons]
        try tauto

theorem mem_sortStable {α : Type} (le : α → α → Bool) (y : α) (l : List α) :
    y ∈ sortStable le l ↔ y ∈ l := by
  induction l with
  | nil => simp [sortStable]
  | cons a t ih => simp [sortStable, mem_insertStable, ih]

theorem pairwise_insertStable {α : Type} (le : α → α → Bool)
    (htrans : ∀ a b c, le a b = true → le b c = true → le a c = true)
    (htotal : ∀ a b, le a b = true ∨ le b a = true) (x : α) (l : List α)
    (h : l.Pairwise (fun a b => le a b = true)) :
    (insertStable le x l).Pairwise (fun a b => le a b = true) := by
  induction l with
  | nil => simp [insertStable]
  | cons a t ih =>
      rw [List.pairwise_cons] at h
      by_cases hc : (le a x && !le x a) = true
      · rw [insertStable, if_pos hc]
        refine List.pairwise_cons.mpr ⟨fun b hb => ?_, ih h.2⟩
        rcases (mem_insertStable le x b t).mp hb with rfl | hbt
        · have hc' := hc
          rw [Bool.and_eq_true] at hc'
          exact hc'.1
        · exact h.1 b hbt
      · rw [insertStable, if_neg hc]
        have hxa : le x a = true := by
          rcases htotal x a with h1 | h1
          · exact h1
          · cases h2 : le x a with
            | true => rfl
            | false => exact absurd (by simp [h1, h2]) hc
        refine List.pairwise_cons.mpr ⟨fun b hb => ?_, List.pairwise_cons.mpr h⟩
        rcases List.mem_cons.mp hb with rfl | hbt
        · exact hxa
        · exact htrans x a b hxa (h.1 b hbt)

theorem pairwise_sortStable {α : Type} (le : α → α → Bool)
    (htrans : ∀ a b c, le a b = true → le b c = true → le a c = true)
    (htotal : ∀ a b, le a b = true ∨ le b a = true) (l : List α) :
    (sortStable le l).Pairwise (fun a b => le a b = true) := by
  induction l with
  | nil => simp [sortStable]
  | cons a t ih => exact pairwise_insertStable le htrans htotal a _ ih

/-- C7 (amended): the performance ranking keeps at most 10 entries (the
hardcoded `slice(0, 10)` bound), lists them in descending order of the student
total, and contains only entries of the resolved selection; ties are left in
selection order by the stable sort, not re-ordered by group key. -/
theorem c7_ranking (sel : List Value) (summaries : List (Value × ZipInfo)) :
    (rankZips sel summaries).length ≤ 10 ∧
    (rankZips sel summaries).Pairwise (fun a b => rankVal b.2 ≤ rankVal a.2) ∧
    ∀ p ∈ rankZips sel summaries,
      p ∈ sel.filterMap (fun z => (mapGet summaries z).map (fun d => (z, d))) := by
  have htrans : ∀ a b c : Value × ZipInfo,
      rankLe a b = true → rankLe b c = true → rankLe a c = true := by
    intro a b c h1 h2
    exact decide_eq_true (le_trans (of_decide_eq_true h2) (of_decide_eq_true h1))
  have htotal : ∀ a b : Value × ZipInfo, rankLe a b = true ∨ rankLe b a = true := by
    intro a b
    rcases le_total (rankVal b.2) (rankVal a.2) with h | h
    · exact Or.inl (decide_eq_true h)
    · exact Or.inr (decide_eq_true h)
  refine ⟨?_, ?_, ?_⟩
  · exact List.length_take_le 10 _
  · have hp := pairwise_sortStable rankLe htrans htotal
      (sel.filterMap (fun z => (mapGet summaries z).map (fun d => (z, d))))
    have hsub := (List.take_sublist 10
      (sortStable rankLe (sel.filterMap (fun z => (mapGet summaries z).map (fun d => (z, d))))))
    exact (hp.sublist hsub).imp (fun h => of_decide_eq_true h)
  · intro p hp
    have hmem : p ∈ sortStable rankLe
        (sel.filterMap (fun z => (mapGet summaries z).map (fun d => (z, d)))) :=
      (List.take_sublist 10 _).subset hp
    exact (mem_sortStable rankLe p _).mp hmem

/-- C7 is false as stated: with the selection ["B", "A"] whose two groups both
have student total 5, the tie stays in selection order ("B" first) under the
stable sort instead of being re-ordered to ascending lexicographic key order
("A" first); the truncation bound is also the constant 10 in the code, not a
configuration value. -/
theorem c7_counterexample :
    rankVal { newZipInfo (Value.str "A") with totalStudents := some 5 }
      = rankVal { newZipInfo (Value.str "B") with totalStudents := some 5 } ∧
    (rankZips [Value.str "B", Value.str "A"]
        [(Value.str "A", { newZipInfo (Value.str "A") with totalStudents := some 5 }),
          (Value.str "B", { newZipInfo (Value.str "B") with totalStudents := some 5 })]).map
        Prod.fst
      = [Value.str "B", Value.str "A"] ∧
    [Value.str "B", Value.str "A"] ≠ [Value.str "A", Value.str "B"] := by
  refine ⟨?_, ?_, ?_⟩ <;> with_unfolding_all decide

theorem ceilDiv_eq_ceil (n p : ℕ) (hp : 0 < p) :
    (n + p - 1) / p = ⌈(n : ℚ) / (p : ℚ)⌉₊ := by
  rcases Nat.eq_zero_or_pos n with hn | hn
  · subst hn
    rw [Nat.div_eq_of_lt (by omega)]
    simp
  · have hpq : (0 : ℚ) < (p : ℚ) := by exact_mod_cast hp
    have hdm := Nat.div_add_mod (n + p - 1) p
    have hmod := Nat.mod_lt (n + p - 1) hp
    set q := (n + p - 1) / p with hq
    have hcomm : q * p = p * q := Nat.mul_comm q p
    have hsub : (q - 1) * p = q * p - p := Nat.sub_one_mul q p
    have f1 : n ≤ q * p := by omega
    have f2 : (q - 1) * p < n := by omega
    have hq0 : q ≠ 0 := by
      intro h0
      rw [h0] at f1
      omega
    symm
    rw [Nat.ceil_eq_iff hq0]
    constructor
    · rw [lt_div_iff₀ hpq]
      exact_mod_cast f2
    · rw [div_le_iff₀ hpq]
      exact_mod_cast f1

/-- C9: for every feature list, page ≥ 1 and page size > 0, the pagination
projection reports `totalPages = ceil(filtered count / pageSize)` (0 pages for
an empty filtered set), returns at most `pageSize` records, and returns an
empty window without failing for any page beyond `totalPages`. -/
theorem c9_pagination (features : List Feature) (searchTerm : String) (page pageSize : ℕ)
    (hp : 1 ≤ page) (hps : 0 < pageSize) :
    (filteredData features searchTerm page pageSize).2
        = ⌈(filteredCount features searchTerm : ℚ) / (pageSize : ℚ)⌉₊ ∧
    (filteredCount features searchTerm = 0 →
      (filteredData features searchTerm page pageSize).2 = 0) ∧
    (filteredData features searchTerm page pageSize).1.length ≤ pageSize ∧
    ((filteredData features searchTerm page pageSize).2 < page →
      (filteredData features searchTerm page pageSize).1 = []) := by
  have h2 : (filteredData features searchTerm page pageSize).2
      = (filteredCount features searchTerm + pageSize - 1) / pageSize := rfl
  have h1 : (filteredData features searchTerm page pageSize).1
      = ((if strTrim searchTerm = "" then features
          else features.filter (matchesSearch searchTerm)).drop
            ((page - 1) * pageSize)).take pageSize := rfl
  have hlen : (if strTrim searchTerm = "" then features
      else features.filter (matchesSearch searchTerm)).length
      = filteredCount features searchTerm := rfl
  refine ⟨?_, ?_, ?_, ?_⟩
  · rw [h2, ceilDiv_eq_ceil _ _ hps]
  · intro h0
    rw [h2, h0]
    exact Nat.div_eq_of_lt (by omega)
  · rw [h1]
    exact List.length_take_le _ _
  · intro hlt
    rw [h2] at hlt
    rw [h1]
    set n := filteredCount features searchTerm with hn
    have hdm := Nat.div_add_mod (n + pageSize - 1) pageSize
    have hmod := Nat.mod_lt (n + pageSize - 1) hps
    set q := (n + pageSize - 1) / pageSize with hq
    have hcomm : q * pageSize = pageSize * q := Nat.mul_comm q pageSize
    have f1 : n ≤ q * pageSize := by omega
    have hmono : q * pageSize ≤ (page - 1) * pageSize :=
      Nat.mul_le_mul_right pageSize (by omega)
    have hdrop : (if strTrim searchTerm = "" then features
        else features.filter (matchesSearch searchTerm)).drop ((page - 1) * pageSize) = [] := by
      refine List.drop_eq_nil_of_le ?_
      rw [hlen]
      omega
    rw [hdrop, List.take_nil]

/-- Witness for C9 at a concrete one-feature list, page 1, page size 2. -/
theorem c9_witness :
    (filteredData [[("a", Value.str "x")]] "" 1 2).2
        = ⌈(filteredCount [[("a", Value.str "x")]] "" : ℚ) / (2 : ℚ)⌉₊ ∧
    (filteredCount [[("a", Value.str "x")]] "" = 0 →
      (filteredData [[("a", Value.str "x")]] "" 1 2).2 = 0) ∧
    (filteredData [[("a", Value.str "x")]] "" 1 2).1.length ≤ 2 ∧
    ((filteredData [[("a", Value.str "x")]] "" 1 2).2 < 1 →
      (filteredData [[("a", Value.str "x")]] "" 1 2).1 = []) :=
  c9_pagination [[("a", Value.str "x")]] "" 1 2 (by decide) (by decide)

/-- Per-key characterization of the generic `Object.entries` loop of
`zipAnalysis` (src/unnamed/part_000, lines 1140-1148): the total stored for a
key grows by exactly the parsed values of that key's entries whose
`parseInt(String(value || 0))` result is non-negative; every other property
entry feeds only its own key, and non-parsing or negative values are skipped. -/
theorem getJ_zUpd_fold (f : Feature) (pt : List (String × JNum)) (k : String) :
    getJ (f.foldl
        (fun pt' kv =>
          if jGe0 (parseIntV kv.2) then mapAdd pt' kv.1 (parseIntV kv.2) else pt')
        pt) k
      = jadd (getJ pt k)
          (jsum ((f.filter (fun kv => decide (kv.1 = k) && jGe0 (parseIntV kv.2))).map
            (fun kv => parseIntV kv.2))) := by
  induction f generalizing pt with
  | nil => simp [jadd_zero_right]
  | cons kv t ih =>
      rw [List.foldl_cons]
      by_cases hg : jGe0 (parseIntV kv.2) = true
      · rw [if_pos hg, ih]
        by_cases hk : kv.1 = k
        · subst hk
          rw [getJ_mapAdd_self, List.filter_cons, if_pos (by simp [hg]),
            List.map_cons, jsum_cons, jadd_assoc]
        · rw [getJ_mapAdd_ne pt kv.1 k (parseIntV kv.2) (fun hh => hk hh.symm),
            List.filter_cons, if_neg (by simp [hk])]
      · rw [if_neg hg, ih, List.filter_cons, if_neg (by simp [hg])]

theorem filter_key_of_nodup (f : Bag) (k : String) (v : Value)
    (hget : getProp f k = v) (hv : v ≠ Value.undefined)
    (hnd : (f.map Prod.fst).Nodup) :
    f.filter (fun kv => decide (kv.1 = k)) = [(k, v)] := by
  induction f with
  | nil =>
      simp only [getProp, List.find?_nil] at hget
      exact absurd hget.symm hv
  | cons kv t ih =>
      obtain ⟨a, b⟩ := kv
      simp only [List.map_cons, List.nodup_cons] at hnd
      by_cases hk : a = k
      · subst hk
        have hb : b = v := by
          simpa [getProp, List.find?] using hget
        subst hb
        rw [List.filter_cons, if_pos (by simp)]
        have hnil : t.filter (fun kv => decide (kv.1 = a)) = [] := by
          rw [List.filter_eq_nil_iff]
          intro kv hkv
          simp only [decide_eq_true_eq]
          intro hkk
          exact hnd.1 (hkk ▸ List.mem_map_of_mem Prod.fst hkv)
        rw [hnil]
      · have hget' : getProp t k = v := by
          simpa [getProp, List.find?, hk] using hget
        rw [List.filter_cons, if_neg (by simp [hk])]
        exact ih hget' hnd.2

/-- The record count and the alias-key total of the group entry a ZIP string
resolves to, reading an absent entry as the fresh accumulator. -/
def zipEntryProj (m : List (Value × ZInfo)) (s a : String) : ℕ × JNum :=
  (((mapGet m (Value.str s)).getD (newZInfo (Value.str s))).count,
   getJ ((mapGet m (Value.str s)).getD (newZInfo (Value.str s))).processedTotals a)

theorem zStep_zipEntry (m : List (Value × ZInfo)) (f : Feature) (s a : String) (n : ℚ)
    (hs : s ≠ "") (hr : resolveZip f = Value.str s)
    (hget : getProp f a = Value.str s) (hnd : (f.map Prod.fst).Nodup)
    (hn : parseIntStr s = some n) (hn0 : 0 ≤ n) :
    zipEntryProj (zStep m f) s a
      = ((zipEntryProj m s a).1 + 1, jadd (zipEntryProj m s a).2 (some n)) := by
  have ht : truthy (Value.str s) = true := by simp [truthy, hs]
  have hstep : zStep m f
      = mapSet m (Value.str s)
          (zUpd ((mapGet m (Value.str s)).getD (newZInfo (Value.str s))) f) := by
    simp [zStep, hr, ht]
  have hg : jGe0 (parseIntV (Value.str s)) = true := by
    simp [parseIntV, hs, hn, jGe0, hn0]
  have hfil : f.filter (fun kv => decide (kv.1 = a) && jGe0 (parseIntV kv.2))
      = [(a, Value.str s)] := by
    have hkey := filter_key_of_nodup f a (Value.str s) hget (by simp) hnd
    calc f.filter (fun kv => decide (kv.1 = a) && jGe0 (parseIntV kv.2))
        = f.filter (fun kv => jGe0 (parseIntV kv.2) && decide (kv.1 = a)) :=
          List.filter_congr (fun kv _ => Bool.and_comm _ _)
      _ = (f.filter (fun kv => decide (kv.1 = a))).filter
            (fun kv => jGe0 (parseIntV kv.2)) :=
          (List.filter_filter (fun kv => decide (kv.1 = a)) f).symm
      _ = [(a, Value.str s)] := by rw [hkey]; simp [List.filter, hg]
  simp only [zipEntryProj, hstep, mapGet_mapSet_self, Option.getD_some, Prod.mk.injEq]
  refine ⟨rfl, ?_⟩
  rw [show (zUpd ((mapGet m (Value.str s)).getD (newZInfo (Value.str s))) f).processedTotals
      = f.foldl
          (fun pt' kv =>
            if jGe0 (parseIntV kv.2) then mapAdd pt' kv.1 (parseIntV kv.2) else pt')
          ((mapGet m (Value.str s)).getD (newZInfo (Value.str s))).processedTotals
    from rfl]
  rw [getJ_zUpd_fold, hfil]
  congr 1
  simp [parseIntV, hs, hn, jadd]

theorem zfold_zipEntry (s a : String) (n : ℚ) (hs : s ≠ "")
    (hn : parseIntStr s = some n) (hn0 : 0 ≤ n) (fs : List Feature) :
    ∀ m : List (Value × ZInfo),
      (∀ f ∈ fs, resolveZip f = Value.str s ∧ getProp f a = Value.str s ∧
        (f.map Prod.fst).Nodup) →
      zipEntryProj (fs.foldl zStep m) s a
        = ((zipEntryProj m s a).1 + fs.length,
           jadd (zipEntryProj m s a).2 (some (n * (fs.length : ℚ)))) := by
  induction fs with
  | nil =>
      intro m _
      simp [jadd_zero_right]
  | cons f t ih =>
      intro m h
      obtain ⟨hr, hget, hnd⟩ := h f (List.mem_cons_self f t)
      rw [List.foldl_cons, ih (zStep m f) (fun g hg => h g (List.mem_cons_of_mem f hg)),
        zStep_zipEntry m f s a n hs hr hget hnd hn hn0, List.length_cons]
      simp only [Prod.mk.injEq]
      constructor
      · omega
      · rw [jadd_assoc]
        congr 1
        rw [show jadd (some n) (some (n * (t.length : ℚ)))
            = some (n + n * (t.length : ℚ)) from rfl]
        congr 1
        push_cast
        ring

theorem zfold_present (s : String) (hs : s ≠ "") (fs : List Feature) :
    ∀ m : List (Value × ZInfo), fs ≠ [] →
      (∀ f ∈ fs, resolveZip f = Value.str s) →
      (mapGet (fs.foldl zStep m) (Value.str s)).isSome = true := by
  induction fs with
  | nil =>
      intro m h _
      exact absurd rfl h
  | cons f t ih =>
      intro m _ h
      rw [List.foldl_cons]
      by_cases hT : t = []
      · subst hT
        simp only [List.foldl_nil]
        have hr := h f (List.mem_cons_self f [])
        have ht : truthy (Value.str s) = true := by simp [truthy, hs]
        have hstep : zStep m f
            = mapSet m (Value.str s)
                (zUpd ((mapGet m (Value.str s)).getD (newZInfo (Value.str s))) f) := by
          simp [zStep, hr, ht]
        rw [hstep, mapGet_mapSet_self]
        rfl
      · exact ih (zStep m f) hT (fun g hg => h g (List.mem_cons_of_mem f hg))

/-- C10 (amended): in the `zipAnalysis` fold, every property value of every
folded feature — not only numeric-looking attributes — is parsed with
integer-truncating `parseInt` on its string form, and a key's stored total
grows by exactly the parsed values of that key's entries whose result is
non-negative (fractional values truncated toward zero, other values skipped);
consequently, for a non-empty group all of whose members carry the same ZIP
alias key with the same value parsing to a non-negative integer — whatever
other properties they carry — the group's map has an entry under that alias
key equal to the numeric ZIP value times the member count.  (A member using a
different alias spelling, or a non-parsing ZIP value, feeds only its own key,
so mixed-alias groups report less than ZIP times count.) -/
theorem c10_processed_totals (s aliasKey : String) (n : ℚ) (fs : List Feature)
    (hs : s ≠ "") (hn : parseIntStr s = some n) (hn0 : 0 ≤ n) (hne : fs ≠ [])
    (halias : aliasKey = "Zip" ∨ aliasKey = "ZIP" ∨ aliasKey = "zipcode")
    (hfs : ∀ f ∈ fs, resolveZip f = Value.str s ∧ getProp f aliasKey = Value.str s ∧
      (f.map Prod.fst).Nodup) :
    (∀ (f : Feature) (pt : List (String × JNum)) (k : String),
      getJ (f.foldl
          (fun pt' kv =>
            if jGe0 (parseIntV kv.2) then mapAdd pt' kv.1 (parseIntV kv.2) else pt')
          pt) k
        = jadd (getJ pt k)
            (jsum ((f.filter (fun kv => decide (kv.1 = k) && jGe0 (parseIntV kv.2))).map
              (fun kv => parseIntV kv.2)))) ∧
    (∃ info, mapGet (zipData fs) (Value.str s) = some info ∧
      info.count = fs.length ∧
      getJ info.processedTotals aliasKey = some (n * (fs.length : ℚ))) ∧
    (∀ q : ℚ, 0 ≤ q → parseIntV (Value.num q) = some ((⌊q⌋ : ℤ) : ℚ)) := by
  refine ⟨fun f pt k => getJ_zUpd_fold f pt k, ?_, fun q hq => by simp [parseIntV, ratTrunc, hq]⟩
  have hpres : (mapGet (zipData fs) (Value.str s)).isSome = true :=
    zfold_present s hs fs [] hne (fun f hf => (hfs f hf).1)
  obtain ⟨info, hinfo⟩ := Option.isSome_iff_exists.mp hpres
  have hfold : zipEntryProj (zipData fs) s aliasKey
      = ((zipEntryProj [] s aliasKey).1 + fs.length,
         jadd (zipEntryProj [] s aliasKey).2 (some (n * (fs.length : ℚ)))) :=
    zfold_zipEntry s aliasKey n hs hn hn0 fs [] hfs
  have hinit : zipEntryProj [] s aliasKey = (0, some 0) := rfl
  have hproj : zipEntryProj (zipData fs) s aliasKey
      = (info.count, getJ info.processedTotals aliasKey) := by
    simp [zipEntryProj, hinfo]
  rw [hproj, hinit] at hfold
  simp only [Prod.mk.injEq] at hfold
  refine ⟨info, hinfo, ?_, ?_⟩
  · omega
  · rw [hfold.2, jadd_zero_left]

/-- C10 is false as stated: two members of group "75", one under the "Zip"
alias and one under the "ZIP" alias, each feed only their own spelling, so the
map entry for "Zip" holds 75 — not the ZIP value 75 times the member count 2. -/
theorem c10_counterexample :
    (mapGet (zipData [[("Zip", Value.str "75")], [("ZIP", Value.str "75")]])
        (Value.str "75")).map (fun i => (i.count, getJ i.processedTotals "Zip"))
      = some (2, some 75) ∧
    (some (75 : ℚ) : JNum) ≠ some (75 * 2) := by
  constructor
  · with_unfolding_all decide
  · with_unfolding_all decide

/-- Witness for C10: two members of group "7" under the "Zip" alias, each
carrying further properties, yield the entry 7 × 2 = 14. -/
theorem c10_witness :
    (∀ (f : Feature) (pt : List (String × JNum)) (k : String),
      getJ (f.foldl
          (fun pt' kv =>
            if jGe0 (parseIntV kv.2) then mapAdd pt' kv.1 (parseIntV kv.2) else pt')
          pt) k
        = jadd (getJ pt k)
            (jsum ((f.filter (fun kv => decide (kv.1 = k) && jGe0 (parseIntV kv.2))).map
              (fun kv => parseIntV kv.2)))) ∧
    (∃ info, mapGet (zipData [[("Zip", Value.str "7"), ("Male", Value.str "3")],
        [("KG", Value.num 2), ("Zip", Value.str "7")]]) (Value.str "7") = some info ∧
      info.count = [[("Zip", Value.str "7"), ("Male", Value.str "3")],
        [("KG", Value.num 2), ("Zip", Value.str "7")]].length ∧
      getJ info.processedTotals "Zip"
        = some (7 * ([[("Zip", Value.str "7"), ("Male", Value.str "3")],
            [("KG", Value.num 2), ("Zip", Value.str "7")]].length : ℚ))) ∧
    (∀ q : ℚ, 0 ≤ q → parseIntV (Value.num q) = some ((⌊q⌋ : ℤ) : ℚ)) :=
  c10_processed_totals "7" "Zip" 7
    [[("Zip", Value.str "7"), ("Male", Value.str "3")],
      [("KG", Value.num 2), ("Zip", Value.str "7")]]
    (by decide) (by with_unfolding_all decide) (by norm_num) (by decide)
    (by decide) (by with_unfolding_all decide)
